import Mathlib

/-!
Verification of the match engine of the Goat-rath chat-bot combat game
(`src/main.py`).  The source file is a concatenation of several copies of
the same handlers; each definition below is translated from an intact copy
(line numbers refer to the first intact occurrence).  The round resolver
`resolve_moves` and the move-submission branch of `callback_query_handler`
are called in the source but never defined there; they are modelled from
the spec and marked as such.
-/

namespace GoatRath

/-- The seven move identifiers of the `MOVES` table (`src/main.py` lines 51-59). -/
inductive Move where
  | punch
  | kick
  | slam
  | dropkick
  | suplex
  | rko
  | reversal
deriving DecidableEq, Repr

/-- Damage value of each move, from the `MOVES` table. -/
def dmg : Move → Int
  | .punch => 5
  | .kick => 15
  | .slam => 25
  | .dropkick => 30
  | .suplex => 45
  | .rko => 55
  | .reversal => 0

/-- Special flag of each move, from the `MOVES` table. -/
def isSpecial : Move → Bool
  | .suplex => true
  | .rko => true
  | _ => false

/-- Game constants (`src/main.py` lines 46-49). -/
def MAX_HP : Int := 200

def MAX_SPECIALS_PER_MATCH : Nat := 4

def MAX_REVERSALS_PER_MATCH : Nat := 3

def MAX_NAME_LENGTH : Nat := 16

/-- One entry of the persistent `user_stats` mapping: a player career record.
`name` is `none` until registration completes. -/
structure Career where
  name : Option String
  wins : Nat
  losses : Nat
  draws : Nat
  specials_used : Nat
  specials_successful : Nat
deriving DecidableEq, Repr

/-- Fresh career record as created by `cmd_start` / `cmd_startcareer`. -/
def Career.fresh : Career :=
  { name := none, wins := 0, losses := 0, draws := 0
    specials_used := 0, specials_successful := 0 }

/-- One entry of the in-memory `games` mapping (`start_match`, `src/main.py`
lines 366-382).  The two players' dict-keyed fields become paired fields
with suffix 1 for `p1` and 2 for `p2`. -/
structure Game where
  p1 : Nat
  p2 : Nat
  hp1 : Int
  hp2 : Int
  specials_left1 : Nat
  specials_left2 : Nat
  reversals_left1 : Nat
  reversals_left2 : Nat
  last_move1 : Option Move
  last_move2 : Option Move
  move_choice1 : Option Move
  move_choice2 : Option Move
  round : Nat
deriving DecidableEq, Repr

/-- The dict literal assigned to `games[group_id]` in `start_match`
(`src/main.py` lines 371-381). -/
def newGame (p1 p2 : Nat) : Game :=
  { p1 := p1, p2 := p2
    hp1 := MAX_HP, hp2 := MAX_HP
    specials_left1 := MAX_SPECIALS_PER_MATCH, specials_left2 := MAX_SPECIALS_PER_MATCH
    reversals_left1 := MAX_REVERSALS_PER_MATCH, reversals_left2 := MAX_REVERSALS_PER_MATCH
    last_move1 := none, last_move2 := none
    move_choice1 := none, move_choice2 := none
    round := 1 }

/-- One entry of the in-memory `lobbies` mapping (`cmd_startgame`,
`src/main.py` line 1491). -/
structure Lobby where
  host : Nat
  players : List Nat
  message_id : Option Nat
deriving DecidableEq, Repr

/-- Modelled from the spec: the round resolver `resolve_moves` is invoked by
`wait_and_resolve` in `src/main.py` but its definition is absent from the
source file.  This follows spec section 4.4 steps 1-2: the pair is
(damage player 1 takes, damage player 2 takes).  A reversal deals 0 and
reflects the opponent's own move damage back onto the opponent; if both
pick reversal neither side takes damage. -/
def damageTaken (mA mB : Move) : Int × Int :=
  if mA = .reversal ∧ mB = .reversal then (0, 0)
  else if mA = .reversal then (0, dmg mB)
  else if mB = .reversal then (dmg mA, 0)
  else (dmg mB, dmg mA)

/-- Modelled from the spec (section 4.4 step 3): hit points decrease by the
damage inflicted, floored at 0. -/
def applyDamage (hp d : Int) : Int := max 0 (hp - d)

/-- Terminal outcome of a resolved round (spec section 4.4 step 7). -/
inductive Outcome where
  | ongoing
  | draw
  | p1Wins
  | p2Wins
deriving DecidableEq, Repr

/-- Result of resolving one round: the continuing game (`none` when the
match ended and was removed from active storage), both updated career
records, and the outcome. -/
structure RoundResult where
  game : Option Game
  c1 : Career
  c2 : Career
  outcome : Outcome
deriving DecidableEq, Repr

/-- Modelled from the spec (section 4.4 step 4): resource accounting for one
player whose pick is `m` and whose move dealt `dealt` damage to the
opponent.  Returns updated specials-remaining, reversals-remaining and
career record. -/
def accountMove (m : Move) (dealt : Int) (sLeft rLeft : Nat) (c : Career) :
    Nat × Nat × Career :=
  let sLeft' := if isSpecial m then sLeft - 1 else sLeft
  let rLeft' := if m = .reversal then rLeft - 1 else rLeft
  let c' :=
    if isSpecial m then
      { c with specials_used := c.specials_used + 1
               specials_successful :=
                 c.specials_successful + (if dealt ≠ 0 then 1 else 0) }
    else c
  (sLeft', rLeft', c')

/-- Modelled from the spec: the body of the absent `resolve_moves`, given
both recorded picks (spec section 4.4 steps 1-8).  Damage is computed
simultaneously from both picks, hit points are clamped at 0, resources and
career specials counters are updated, last moves are recorded, picks are
cleared and the round counter incremented; if any pool is ≤ 0 the match
ends (draw when both are) with career wins/losses/draws updated and the
game removed (`game := none`). -/
def resolveWith (g : Game) (c1 c2 : Career) (mA mB : Move) : RoundResult :=
  let d := damageTaken mA mB
  let hp1' := applyDamage g.hp1 d.1
  let hp2' := applyDamage g.hp2 d.2
  let a1 := accountMove mA d.2 g.specials_left1 g.reversals_left1 c1
  let a2 := accountMove mB d.1 g.specials_left2 g.reversals_left2 c2
  let g' : Game :=
    { g with hp1 := hp1', hp2 := hp2'
             specials_left1 := a1.1, reversals_left1 := a1.2.1
             specials_left2 := a2.1, reversals_left2 := a2.2.1
             last_move1 := some mA, last_move2 := some mB
             move_choice1 := none, move_choice2 := none
             round := g.round + 1 }
  if hp1' ≤ 0 ∧ hp2' ≤ 0 then
    ⟨none, { a1.2.2 with draws := a1.2.2.draws + 1 },
           { a2.2.2 with draws := a2.2.2.draws + 1 }, .draw⟩
  else if hp1' ≤ 0 then
    ⟨none, { a1.2.2 with losses := a1.2.2.losses + 1 },
           { a2.2.2 with wins := a2.2.2.wins + 1 }, .p2Wins⟩
  else if hp2' ≤ 0 then
    ⟨none, { a1.2.2 with wins := a1.2.2.wins + 1 },
           { a2.2.2 with losses := a2.2.2.losses + 1 }, .p1Wins⟩
  else
    ⟨some g', a1.2.2, a2.2.2, .ongoing⟩

/-- Modelled from the spec: `resolve_moves` is triggered only once both
players have a recorded pick; it reads the picks from the game state. -/
def resolve_moves (g : Game) (c1 c2 : Career) : Option RoundResult :=
  match g.move_choice1, g.move_choice2 with
  | some mA, some mB => some (resolveWith g c1 c2 mA mB)
  | _, _ => none

/-- Truthiness test of the wait loop: `all(game["move_choice"].get(p) for p
in game["players"])` — both picks present (move names are non-empty
strings, so present iff truthy). -/
def bothPicked (s : Option Move × Option Move) : Bool :=
  s.1.isSome && s.2.isSome

/-- Observable result of `wait_and_resolve`: the picks handed to
resolution, whether each player was defaulted to punch (with its public
notice), and whether resolution fired before the window elapsed. -/
structure WaitResult where
  picks : Option Move × Option Move
  defaulted1 : Bool
  defaulted2 : Bool
  early : Bool
deriving DecidableEq, Repr

/-- The polling loop of `wait_and_resolve` (`src/main.py` lines 400-417):
`timeout = 45`, `waited = 0`, `interval = 1`; while `waited < timeout`, if
both picks are present resolve and return, else sleep one unit and
increment `waited`.  `env t` is the shared `move_choice` state observed
after `t` sleeps; `fuel` is `timeout - waited`.  After the loop, each
missing pick is set to punch with a group notice, and resolution runs. -/
def waitFuel (env : Nat → Option Move × Option Move) (waited : Nat) :
    Nat → WaitResult
  | 0 =>
      let s := env waited
      ⟨(some (s.1.getD .punch), some (s.2.getD .punch)),
        s.1.isNone, s.2.isNone, false⟩
  | fuel + 1 =>
      if bothPicked (env waited) then ⟨env waited, false, false, true⟩
      else waitFuel env (waited + 1) fuel

/-- `wait_and_resolve` entry: `waited = 0`, `timeout = 45`. -/
def wait_and_resolve (env : Nat → Option Move × Option Move) : WaitResult :=
  waitFuel env 0 45

/-- Modelled from the spec: the move-submission branch of
`callback_query_handler` is truncated in every copy in the source file, so
the restriction check is taken from spec section 4.3.  A move is blocked
when it repeats the player's immediately preceding resolved move and that
move was a special or the reversal, or when it is a special with
specials-remaining 0, or the reversal with reversals-remaining 0. -/
def moveBlocked (lastMove : Option Move) (sLeft rLeft : Nat) (m : Move) :
    Bool :=
  (match lastMove with
   | some lm => m = lm ∧ (isSpecial lm ∨ lm = .reversal)
   | none => false)
  || (isSpecial m && sLeft == 0)
  || (m = .reversal && rLeft == 0)

/-- Per-player field selectors (`side = false` is player 1, `side = true`
is player 2), mirroring the per-player dicts of the game state. -/
def lastOf (g : Game) (side : Bool) : Option Move :=
  if side then g.last_move2 else g.last_move1

/-- Specials-remaining of the selected player. -/
def specialsOf (g : Game) (side : Bool) : Nat :=
  if side then g.specials_left2 else g.specials_left1

/-- Reversals-remaining of the selected player. -/
def reversalsOf (g : Game) (side : Bool) : Nat :=
  if side then g.reversals_left2 else g.reversals_left1

/-- Current-round pick of the selected player. -/
def choiceOf (g : Game) (side : Bool) : Option Move :=
  if side then g.move_choice2 else g.move_choice1

/-- Modelled from the spec: `submitMove` for one player.  A blocked move is
rejected before any mutation — the game is returned unchanged and the
restriction notice flag is `true`; an accepted move is recorded in the
player's `move_choice` (overwriting any earlier pick this round) with no
notice. -/
def submitMove (g : Game) (side : Bool) (m : Move) : Game × Bool :=
  if moveBlocked (lastOf g side) (specialsOf g side) (reversalsOf g side) m
  then (g, true)
  else if side then ({ g with move_choice2 := some m }, false)
  else ({ g with move_choice1 := some m }, false)

/-- Lookup in an association list modelling a Python dict (one binding per
key; `setKey` below maintains that). -/
def findKey (k : Nat) : List (Nat × α) → Option α
  | [] => none
  | (k', v) :: rest => if k' = k then some v else findKey k rest

/-- Python `d.pop(k, None)`: remove the binding for `k`. -/
def eraseKey (k : Nat) : List (Nat × α) → List (Nat × α)
  | [] => []
  | kv :: rest => if kv.1 = k then eraseKey k rest else kv :: eraseKey k rest

/-- Python `d[k] = v`: bind `k` to `v`, replacing any earlier binding. -/
def setKey (k : Nat) (v : α) (l : List (Nat × α)) : List (Nat × α) :=
  (k, v) :: eraseKey k l

/-- The process-global mutable registries of `src/main.py`: `user_stats`
(keyed by user id), `lobbies` and `games` (keyed by group id). -/
structure BotState where
  user_stats : List (Nat × Career)
  lobbies : List (Nat × Lobby)
  games : List (Nat × Game)
deriving DecidableEq, Repr

/-- Registration guard used by `cmd_startgame` and `lobby_callback`:
`str(uid) in user_stats and user_stats[str(uid)].get("name")` (a name is
truthy iff present and non-empty). -/
def hasName (stats : List (Nat × Career)) (uid : Nat) : Bool :=
  match findKey uid stats with
  | some c => match c.name with
              | some n => n ≠ ""
              | none => false
  | none => false

/-- Result of `cmd_startgame` (`src/main.py` lines 1479-1501). -/
inductive StartgameResult where
  | notRegistered
  | matchActive
  | opened (st : BotState)
deriving DecidableEq, Repr

/-- `cmd_startgame` in a group (`src/main.py` lines 1479-1501): reject if
the caller has no registered name; reject if a match is active in the
group (`if group_id in games`); otherwise assign
`lobbies[group_id] = \x7b"host": uid, "players": [uid], "message_id": None\x7d`.
The source performs no check against an existing lobby for the group. -/
def cmd_startgame (st : BotState) (group_id uid : Nat) : StartgameResult :=
  if ¬ hasName st.user_stats uid then .notRegistered
  else if (findKey group_id st.games).isSome then .matchActive
  else .opened
    { st with lobbies :=
        setKey group_id ⟨uid, [uid], none⟩ st.lobbies }

/-- `start_match` (`src/main.py` lines 366-382): if a game is already
active in the group, do nothing; otherwise install a fresh game. -/
def start_match (st : BotState) (group_id p1 p2 : Nat) : BotState :=
  if (findKey group_id st.games).isSome then st
  else { st with games := setKey group_id (newGame p1 p2) st.games }

/-- The `cancel_lobby` branch of `lobby_callback` (`src/main.py` lines
1503-1522): a missing lobby or host mismatch pops the binding; only the
host may cancel; cancelling pops the lobby. -/
def lobby_cancel (st : BotState) (group_id host_id user_id : Nat) :
    BotState :=
  match findKey group_id st.lobbies with
  | none => { st with lobbies := eraseKey group_id st.lobbies }
  | some lobby =>
      if lobby.host ≠ host_id then
        { st with lobbies := eraseKey group_id st.lobbies }
      else if user_id ≠ host_id then st
      else { st with lobbies := eraseKey group_id st.lobbies }

/-- The `join` branch of `lobby_callback` (`src/main.py` lines 1523-1536):
a missing lobby or host mismatch pops the binding; the host cannot join
their own lobby; an unregistered joiner is rejected; otherwise the joiner
is appended, the lobby is popped, and `start_match` runs. -/
def lobby_join (st : BotState) (group_id host_id user_id : Nat) : BotState :=
  match findKey group_id st.lobbies with
  | none => { st with lobbies := eraseKey group_id st.lobbies }
  | some lobby =>
      if lobby.host ≠ host_id then
        { st with lobbies := eraseKey group_id st.lobbies }
      else if user_id = host_id then st
      else if ¬ hasName st.user_stats user_id then st
      else
        let joined : Lobby := { lobby with players := lobby.players ++ [user_id] }
        let st1 := { st with lobbies := setKey group_id joined st.lobbies }
        let st2 := { st1 with lobbies := eraseKey group_id st1.lobbies }
        start_match st2 group_id host_id user_id

/-- Match finalization removes the game from active storage
(spec section 4.4 step 8; `resolve_moves` is absent from the source). -/
def remove_match (st : BotState) (group_id : Nat) : BotState :=
  { st with games := eraseKey group_id st.games }

/-- Python `str.lower()` as used on wrestler names (ASCII case folding,
matching `Char.toLower`). -/
def lowerStr (s : String) : String := ⟨s.data.map Char.toLower⟩

/-- Outcome of the registration branch of `private_text_handler`. -/
inductive RegResult where
  | emptyName
  | tooLong
  | taken
  | ok
deriving DecidableEq, Repr

/-- The `taken` check of `private_text_handler` (`src/main.py` line 1399):
`any(info.get("name") and info["name"].lower() == name.lower() for k,info
in user_stats.items() if k != uid_s)`.  A `None` or empty stored name is
falsy and never counts. -/
def nameTaken (stats : List (Nat × Career)) (uid : Nat) (name : String) :
    Bool :=
  stats.any fun kv =>
    kv.1 != uid &&
      (match kv.2.name with
       | some n => decide (n ≠ "") && (lowerStr n == lowerStr name)
       | none => false)

/-- The assignment block of `private_text_handler` (`src/main.py` lines
1403-1408): `setdefault` the caller's record, set its name, and
`setdefault` the counters (filling zeros only when the record is new). -/
def setCareerName (stats : List (Nat × Career)) (uid : Nat) (name : String) :
    List (Nat × Career) :=
  match findKey uid stats with
  | some c => setKey uid { c with name := some name } stats
  | none => setKey uid { Career.fresh with name := some name } stats

/-- The registration branch of `private_text_handler` (`src/main.py` lines
1391-1411), applied to the already-stripped message text `name`: reject an
empty name, a name longer than `MAX_NAME_LENGTH`, or a name
case-insensitively held by another player; otherwise record it.  On
rejection the store is returned unchanged. -/
def registerOrRename (stats : List (Nat × Career)) (uid : Nat)
    (name : String) : RegResult × List (Nat × Career) :=
  if name = "" then (.emptyName, stats)
  else if name.length > MAX_NAME_LENGTH then (.tooLong, stats)
  else if nameTaken stats uid name then (.taken, stats)
  else (.ok, setCareerName stats uid name)

/-- Win percentage of `cmd_stats` and `create_stats_image` (`src/main.py`
lines 1449-1450 and 1302-1303): `round((wins/total)*100,1) if total else
0.0`, with `total = wins + losses + draws`.  Arithmetic is modelled over ℚ;
the only facts claimed of it concern the zero guard. -/
def win_pct (wins losses draws : Nat) : ℚ :=
  let total : ℚ := (wins : ℚ) + losses + draws
  if total = 0 then 0 else (round ((wins / total) * 100 * 10) : ℤ) / 10

/-- Special-success rate of `cmd_stats` and `create_stats_image`
(`src/main.py` lines 1451-1452 and 1304-1305):
`round((sp_succ/sp_used)*100,1) if sp_used else 0.0`. -/
def sp_rate (sp_used sp_succ : Nat) : ℚ :=
  if (sp_used : ℚ) = 0 then 0
  else (round (((sp_succ : ℚ) / sp_used) * 100 * 10) : ℤ) / 10

/-- External events that mutate the lobby/game registries. -/
inductive Step where
  | startgame (group_id uid : Nat)
  | cancel (group_id host_id user_id : Nat)
  | join (group_id host_id user_id : Nat)
  | finish (group_id : Nat)
  | register (uid : Nat) (name : String)
deriving Repr

/-- Effect of one event on the global state.  `startgame` keeps the state
unchanged on either failure. -/
def applyStep (st : BotState) : Step → BotState
  | .startgame group_id uid =>
      match cmd_startgame st group_id uid with
      | .opened st' => st'
      | _ => st
  | .cancel group_id host_id user_id => lobby_cancel st group_id host_id user_id
  | .join group_id host_id user_id => lobby_join st group_id host_id user_id
  | .finish group_id => remove_match st group_id
  | .register uid name => { st with user_stats := (registerOrRename st.user_stats uid name).2 }

/-- Fold a list of events from a state. -/
def runSteps (st : BotState) (steps : List Step) : BotState :=
  steps.foldl applyStep st

/-- Empty registries at process start (`lobbies = \x7b\x7d`, `games = \x7b\x7d`). -/
def initState : BotState := ⟨[], [], []⟩

/-! Association-list lemmas: `setKey`/`eraseKey` behave like Python dict
assignment and `pop`, and preserve key uniqueness. -/

theorem findKey_eraseKey_self {α : Type} (k : Nat) (l : List (Nat × α)) :
    findKey k (eraseKey k l) = none := by
  induction l with
  | nil => rfl
  | cons kv rest ih =>
      by_cases h : kv.1 = k
      · simpa [eraseKey, h] using ih
      · simpa [eraseKey, findKey, h] using ih

theorem findKey_eraseKey_ne {α : Type} (k k' : Nat) (l : List (Nat × α))
    (h : k' ≠ k) : findKey k' (eraseKey k l) = findKey k' l := by
  induction l with
  | nil => rfl
  | cons kv rest ih =>
      have h3 : ¬ k = k' := fun hh => h hh.symm
      by_cases hk : kv.1 = k
      · simpa [eraseKey, findKey, hk, h3] using ih
      · by_cases hk' : kv.1 = k'
        · simp [eraseKey, findKey, hk, hk', h]
        · simpa [eraseKey, findKey, hk, hk'] using ih

theorem eraseKey_sublist {α : Type} (k : Nat) (l : List (Nat × α)) :
    (eraseKey k l).Sublist l := by
  induction l with
  | nil => simp [eraseKey]
  | cons kv rest ih =>
      by_cases h : kv.1 = k
      · simpa [eraseKey, h] using ih.cons kv
      · simpa [eraseKey, h] using ih.cons₂ kv

theorem findKey_setKey_self {α : Type} (k : Nat) (v : α) (l : List (Nat × α)) :
    findKey k (setKey k v l) = some v := by
  simp [setKey, findKey]

theorem findKey_setKey_ne {α : Type} (k k' : Nat) (v : α) (l : List (Nat × α))
    (h : k' ≠ k) : findKey k' (setKey k v l) = findKey k' l := by
  have : k ≠ k' := fun hh => h hh.symm
  simp only [setKey, findKey, this, if_false]
  exact findKey_eraseKey_ne k k' l h

/-- Uniqueness of keys, the defining property of a Python dict. -/
def keysNodup {α : Type} (l : List (Nat × α)) : Prop :=
  (l.map Prod.fst).Nodup

theorem keysNodup_nil {α : Type} : keysNodup ([] : List (Nat × α)) :=
  List.nodup_nil

theorem keysNodup_eraseKey {α : Type} (k : Nat) {l : List (Nat × α)}
    (h : keysNodup l) : keysNodup (eraseKey k l) := by
  unfold keysNodup at *
  exact ((eraseKey_sublist k l).map Prod.fst).nodup h

theorem not_mem_keys_eraseKey {α : Type} (k : Nat) (l : List (Nat × α)) :
    k ∉ (eraseKey k l).map Prod.fst := by
  induction l with
  | nil => simp [eraseKey]
  | cons kv rest ih =>
      by_cases h : kv.1 = k
      · simpa [eraseKey, h] using ih
      · simp only [eraseKey, h, if_false, List.map_cons, List.mem_cons]
        rintro (hh | hh)
        · exact h hh.symm
        · exact ih hh

theorem keysNodup_setKey {α : Type} (k : Nat) (v : α) {l : List (Nat × α)}
    (h : keysNodup l) : keysNodup (setKey k v l) := by
  unfold keysNodup setKey
  simp only [List.map_cons, List.nodup_cons]
  exact ⟨not_mem_keys_eraseKey k l, keysNodup_eraseKey k h⟩

/-- Hit points of player 1 after the round's simultaneous damage. -/
def hpAfter1 (g : Game) (mA mB : Move) : Int :=
  applyDamage g.hp1 (damageTaken mA mB).1

/-- Hit points of player 2 after the round's simultaneous damage. -/
def hpAfter2 (g : Game) (mA mB : Move) : Int :=
  applyDamage g.hp2 (damageTaken mA mB).2

theorem accountMove_outcome_fields (m : Move) (dealt : Int) (s r : Nat)
    (c : Career) :
    (accountMove m dealt s r c).2.2.wins = c.wins ∧
    (accountMove m dealt s r c).2.2.losses = c.losses ∧
    (accountMove m dealt s r c).2.2.draws = c.draws := by
  unfold accountMove
  by_cases h : isSpecial m = true <;> simp [h]

/-- Claim C1: in round resolution, if exactly one player picks reversal the
reversing player takes 0 damage and the opponent takes their own move's
damage reflected back; if both pick reversal neither takes any damage. -/
theorem reversal_reflects (m : Move) (h : m ≠ .reversal) :
    damageTaken .reversal m = (0, dmg m) ∧
    damageTaken m .reversal = (dmg m, 0) ∧
    damageTaken .reversal .reversal = (0, 0) := by
  refine ⟨?_, ?_, rfl⟩ <;> simp [damageTaken, h]

/-- Witness for C1 at `m = punch`. -/
theorem reversal_reflects_witness :
    damageTaken .reversal .punch = (0, dmg .punch) ∧
    damageTaken .punch .reversal = (dmg .punch, 0) ∧
    damageTaken .reversal .reversal = (0, 0) :=
  reversal_reflects .punch (by decide)

/-- Claim C3: for every resolved round that leaves the match running, each
player's hit points after resolution equal `max 0 (before - damage)`, and
are never negative. -/
theorem hp_clamped (g : Game) (c1 c2 : Career) (mA mB : Move) (g' : Game)
    (h : (resolveWith g c1 c2 mA mB).game = some g') :
    g'.hp1 = max 0 (g.hp1 - (damageTaken mA mB).1) ∧
    g'.hp2 = max 0 (g.hp2 - (damageTaken mA mB).2) ∧
    0 ≤ g'.hp1 ∧ 0 ≤ g'.hp2 := by
  unfold resolveWith at h
  dsimp only at h
  split_ifs at h with h1 h2 h3
  dsimp only at h
  rw [Option.some.injEq] at h
  subst h
  refine ⟨rfl, rfl, ?_, ?_⟩ <;> exact le_max_left 0 _

/-- Concrete game used by the C3 witness: both players punched from 200. -/
def gAfterPunch : Game :=
  { newGame 1 2 with
      hp1 := 195, hp2 := 195
      last_move1 := some .punch, last_move2 := some .punch
      round := 2 }

/-- Witness for C3: a punch-vs-punch round from the initial game. -/
theorem hp_clamped_witness :
    gAfterPunch.hp1 = max 0 ((newGame 1 2).hp1 - (damageTaken .punch .punch).1) ∧
    gAfterPunch.hp2 = max 0 ((newGame 1 2).hp2 - (damageTaken .punch .punch).2) ∧
    0 ≤ gAfterPunch.hp1 ∧ 0 ≤ gAfterPunch.hp2 :=
  hp_clamped (newGame 1 2) Career.fresh Career.fresh .punch .punch gAfterPunch
    (by decide)

/-- Claim C7: a newly created match starts at round 1 with both hit-point
pools at 200, specials-remaining 4 and reversals-remaining 3 per player,
and no recorded last move or current pick; `start_match` installs exactly
this game when the venue has none. -/
theorem match_initial_state (st : BotState) (v p1 p2 : Nat)
    (h : findKey v st.games = none) :
    findKey v (start_match st v p1 p2).games = some (newGame p1 p2) ∧
    (newGame p1 p2).round = 1 ∧
    (newGame p1 p2).hp1 = 200 ∧ (newGame p1 p2).hp2 = 200 ∧
    (newGame p1 p2).specials_left1 = 4 ∧ (newGame p1 p2).specials_left2 = 4 ∧
    (newGame p1 p2).reversals_left1 = 3 ∧ (newGame p1 p2).reversals_left2 = 3 ∧
    (newGame p1 p2).last_move1 = none ∧ (newGame p1 p2).last_move2 = none ∧
    (newGame p1 p2).move_choice1 = none ∧ (newGame p1 p2).move_choice2 = none := by
  refine ⟨?_, rfl, rfl, rfl, rfl, rfl, rfl, rfl, rfl, rfl, rfl, rfl⟩
  unfold start_match
  rw [h]
  simpa using findKey_setKey_self v (newGame p1 p2) st.games

/-- Witness for C7 from the empty registries. -/
theorem match_initial_state_witness :
    findKey 9 (start_match initState 9 1 2).games = some (newGame 1 2) ∧
    (newGame 1 2).round = 1 ∧
    (newGame 1 2).hp1 = 200 ∧ (newGame 1 2).hp2 = 200 ∧
    (newGame 1 2).specials_left1 = 4 ∧ (newGame 1 2).specials_left2 = 4 ∧
    (newGame 1 2).reversals_left1 = 3 ∧ (newGame 1 2).reversals_left2 = 3 ∧
    (newGame 1 2).last_move1 = none ∧ (newGame 1 2).last_move2 = none ∧
    (newGame 1 2).move_choice1 = none ∧ (newGame 1 2).move_choice2 = none :=
  match_initial_state initState 9 1 2 (by decide)

/-- Claim C10: the displayed win percentage is 0 when `wins+losses+draws`
is 0, and the special-success rate is 0 when `specials_used` is 0, so the
guarded divisions never divide by zero. -/
theorem stats_rates_zero_guard (w l d su ss : Nat) :
    (w + l + d = 0 → win_pct w l d = 0) ∧ (su = 0 → sp_rate su ss = 0) := by
  constructor
  · intro h
    have hq : ((w : ℚ) + l + d) = 0 := by exact_mod_cast h
    simp [win_pct, hq]
  · intro h
    subst h
    simp [sp_rate]

/-- Witness for C10 at zero totals. -/
theorem stats_rates_zero_guard_witness :
    win_pct 0 0 0 = 0 ∧ sp_rate 0 5 = 0 :=
  ⟨(stats_rates_zero_guard 0 0 0 0 5).1 rfl,
   (stats_rates_zero_guard 0 0 0 0 5).2 rfl⟩

/-- Claim C2: a resolution step that drives both pools to ≤ 0 ends the
match in a draw with both career draw counts incremented and the game
removed; driving exactly one pool to ≤ 0 makes that player the loser and
the other the winner, with career losses and wins incremented. -/
theorem outcome_rules (g : Game) (c1 c2 : Career) (mA mB : Move) :
    (hpAfter1 g mA mB ≤ 0 ∧ hpAfter2 g mA mB ≤ 0 →
      (resolveWith g c1 c2 mA mB).outcome = .draw ∧
      (resolveWith g c1 c2 mA mB).game = none ∧
      (resolveWith g c1 c2 mA mB).c1.draws = c1.draws + 1 ∧
      (resolveWith g c1 c2 mA mB).c2.draws = c2.draws + 1) ∧
    (hpAfter1 g mA mB ≤ 0 → ¬ hpAfter2 g mA mB ≤ 0 →
      (resolveWith g c1 c2 mA mB).outcome = .p2Wins ∧
      (resolveWith g c1 c2 mA mB).game = none ∧
      (resolveWith g c1 c2 mA mB).c1.losses = c1.losses + 1 ∧
      (resolveWith g c1 c2 mA mB).c2.wins = c2.wins + 1) ∧
    (¬ hpAfter1 g mA mB ≤ 0 → hpAfter2 g mA mB ≤ 0 →
      (resolveWith g c1 c2 mA mB).outcome = .p1Wins ∧
      (resolveWith g c1 c2 mA mB).game = none ∧
      (resolveWith g c1 c2 mA mB).c1.wins = c1.wins + 1 ∧
      (resolveWith g c1 c2 mA mB).c2.losses = c2.losses + 1) := by
  have a1 := accountMove_outcome_fields mA (damageTaken mA mB).2
    g.specials_left1 g.reversals_left1 c1
  have a2 := accountMove_outcome_fields mB (damageTaken mA mB).1
    g.specials_left2 g.reversals_left2 c2
  unfold resolveWith hpAfter1 hpAfter2
  dsimp only
  refine ⟨?_, ?_, ?_⟩
  · rintro ⟨h1, h2⟩
    rw [if_pos ⟨h1, h2⟩]
    exact ⟨rfl, rfl, by simp [a1.2.2], by simp [a2.2.2]⟩
  · intro h1 h2
    rw [if_neg (fun hc => h2 hc.2), if_pos h1]
    exact ⟨rfl, rfl, by simp [a1.2.1], by simp [a2.1]⟩
  · intro h1 h2
    rw [if_neg (fun hc => h1 hc.1), if_neg h1, if_pos h2]
    exact ⟨rfl, rfl, by simp [a1.1], by simp [a2.2.1]⟩

/-- Concrete pre-round game for the C2 witness: both players at low health. -/
def gNearDeath : Game := { newGame 1 2 with hp1 := 50, hp2 := 55 }

/-- Witness for C2: a double-RKO round kills both players and draws. -/
theorem outcome_rules_witness :
    (resolveWith gNearDeath Career.fresh Career.fresh .rko .rko).outcome = .draw ∧
    (resolveWith gNearDeath Career.fresh Career.fresh .rko .rko).game = none ∧
    (resolveWith gNearDeath Career.fresh Career.fresh .rko .rko).c1.draws =
      Career.fresh.draws + 1 ∧
    (resolveWith gNearDeath Career.fresh Career.fresh .rko .rko).c2.draws =
      Career.fresh.draws + 1 :=
  (outcome_rules gNearDeath Career.fresh Career.fresh .rko .rko).1 (by decide)

/-- Claim C4: a submission repeating the player's previous resolved move
when that move was a special or the reversal, or picking a special with no
specials remaining or the reversal with no reversals remaining, is
rejected with a restriction notice and without recording the pick; a
non-blocked move can still be submitted in the same round. -/
theorem submit_restriction (g : Game) (side : Bool) (m m2 : Move)
    (h : (lastOf g side = some m ∧ (isSpecial m = true ∨ m = .reversal)) ∨
         (isSpecial m = true ∧ specialsOf g side = 0) ∨
         (m = .reversal ∧ reversalsOf g side = 0))
    (h2 : moveBlocked (lastOf g side) (specialsOf g side)
        (reversalsOf g side) m2 = false) :
    submitMove g side m = (g, true) ∧
    (submitMove g side m2).2 = false ∧
    choiceOf (submitMove g side m2).1 side = some m2 := by
  have hb : moveBlocked (lastOf g side) (specialsOf g side)
      (reversalsOf g side) m = true := by
    rcases h with ⟨hl, hs⟩ | ⟨hs, h0⟩ | ⟨hr, h0⟩
    · unfold moveBlocked
      rw [hl]
      simp [hs]
    · unfold moveBlocked
      simp [hs, h0]
    · unfold moveBlocked
      simp [hr, h0]
  refine ⟨by simp [submitMove, hb], ?_, ?_⟩
  · cases side <;> simp [submitMove, h2]
  · cases side <;> simp [submitMove, h2, choiceOf]

/-- Concrete mid-match game for the C4 witness: player 1 RKO-ed last round. -/
def gBlocked : Game := { newGame 1 2 with last_move1 := some .rko }

/-- Witness for C4: a repeated RKO is rejected, a punch is then accepted. -/
theorem submit_restriction_witness :
    submitMove gBlocked false .rko = (gBlocked, true) ∧
    (submitMove gBlocked false .punch).2 = false ∧
    choiceOf (submitMove gBlocked false .punch).1 false = some .punch :=
  submit_restriction gBlocked false .rko .punch (Or.inl (by decide)) (by decide)

theorem waitFuel_reaches (env : Nat → Option Move × Option Move)
    (fuel w t : Nat) (ht : t < fuel)
    (hmin : ∀ s, s < t → bothPicked (env (w + s)) = false)
    (hp : bothPicked (env (w + t)) = true) :
    waitFuel env w fuel = ⟨env (w + t), false, false, true⟩ := by
  induction fuel generalizing w t with
  | zero => omega
  | succ f ih =>
      by_cases h0 : bothPicked (env w) = true
      · have ht0 : t = 0 := by
          by_contra hne
          have hm := hmin 0 (by omega)
          rw [Nat.add_zero] at hm
          rw [hm] at h0
          cases h0
        subst ht0
        simp [waitFuel, h0]
      · have hz : t ≠ 0 := by
          intro ht0
          subst ht0
          rw [Nat.add_zero] at hp
          exact h0 hp
        obtain ⟨t', rfl⟩ : ∃ t', t = t' + 1 := ⟨t - 1, by omega⟩
        have hrec := ih (w + 1) t' (by omega)
          (fun s hs => by
            have hm := hmin (s + 1) (by omega)
            rw [show w + (s + 1) = w + 1 + s by omega] at hm
            exact hm)
          (by rw [show w + 1 + t' = w + (t' + 1) by omega]; exact hp)
        rw [waitFuel, if_neg h0, hrec,
          show w + 1 + t' = w + (t' + 1) by omega]

theorem waitFuel_timeout (env : Nat → Option Move × Option Move)
    (fuel w : Nat)
    (hnone : ∀ s, s < fuel → bothPicked (env (w + s)) = false) :
    waitFuel env w fuel =
      ⟨(some ((env (w + fuel)).1.getD .punch),
        some ((env (w + fuel)).2.getD .punch)),
       (env (w + fuel)).1.isNone, (env (w + fuel)).2.isNone, false⟩ := by
  induction fuel generalizing w with
  | zero => simp [waitFuel]
  | succ f ih =>
      have h0 := hnone 0 (by omega)
      rw [Nat.add_zero] at h0
      have hrec := ih (w + 1)
        (fun s hs => by
          have hm := hnone (s + 1) (by omega)
          rw [show w + (s + 1) = w + 1 + s by omega] at hm
          exact hm)
      rw [waitFuel, if_neg (by simp [h0]), hrec,
        show w + 1 + f = w + (f + 1) by omega]

/-- Claim C5: `wait_and_resolve` fires resolution at the first poll (within
the 45-unit window) at which both picks are recorded, with no defaulting;
if the window elapses without that, each missing pick is defaulted to
punch exactly once (with its notice flag) and resolution proceeds with
both picks defined. -/
theorem round_trigger (env : Nat → Option Move × Option Move) :
    (∀ t, t < 45 → (∀ s, s < t → bothPicked (env s) = false) →
        bothPicked (env t) = true →
        wait_and_resolve env = ⟨env t, false, false, true⟩) ∧
    ((∀ s, s < 45 → bothPicked (env s) = false) →
        wait_and_resolve env =
          ⟨(some ((env 45).1.getD .punch), some ((env 45).2.getD .punch)),
           (env 45).1.isNone, (env 45).2.isNone, false⟩) := by
  constructor
  · intro t ht hmin hp
    unfold wait_and_resolve
    have hr := waitFuel_reaches env 45 0 t ht
      (fun s hs => by simpa using hmin s hs) (by simpa using hp)
    simpa using hr
  · intro hnone
    unfold wait_and_resolve
    have hr := waitFuel_timeout env 45 0
      (fun s hs => by simpa using hnone s hs)
    simpa using hr

/-- Pick evolution for the C5 witness: player 1 picked punch immediately,
player 2 never picks. -/
def envLate : Nat → Option Move × Option Move := fun _ => (some .punch, none)

/-- Witness for C5: the window elapses and player 2 is defaulted to punch. -/
theorem round_trigger_witness :
    wait_and_resolve envLate =
      ⟨(some .punch, some .punch), false, true, false⟩ :=
  (round_trigger envLate).2 (by decide)

theorem nameTaken_iff (stats : List (Nat × Career)) (uid : Nat)
    (name : String) :
    nameTaken stats uid name = true ↔
      ∃ kv ∈ stats, kv.1 ≠ uid ∧
        ∃ n, kv.2.name = some n ∧ n ≠ "" ∧ lowerStr n = lowerStr name := by
  unfold nameTaken
  rw [List.any_eq_true]
  constructor
  · rintro ⟨kv, hmem, hP⟩
    rw [Bool.and_eq_true] at hP
    obtain ⟨hne, hmatch⟩ := hP
    refine ⟨kv, hmem, by simpa using hne, ?_⟩
    cases hn : kv.2.name with
    | none => rw [hn] at hmatch; cases hmatch
    | some n =>
        rw [hn, Bool.and_eq_true] at hmatch
        exact ⟨n, rfl, by simpa using hmatch.1, by simpa using hmatch.2⟩
  · rintro ⟨kv, hmem, hne, n, hn, hne2, hlow⟩
    refine ⟨kv, hmem, ?_⟩
    rw [Bool.and_eq_true]
    refine ⟨by simpa using hne, ?_⟩
    rw [hn, Bool.and_eq_true]
    exact ⟨by simpa using hne2, by simpa using hlow⟩

/-- Claim C9: registration/rename rejects the candidate and leaves the
store unchanged exactly when the name is empty, longer than 16 characters,
or case-insensitively another player's registered name; otherwise it sets
the caller's name to the submitted value. -/
theorem register_rules (stats : List (Nat × Career)) (uid : Nat)
    (name : String) :
    ((registerOrRename stats uid name).1 ≠ .ok ↔
      (name = "" ∨ name.length > MAX_NAME_LENGTH ∨
        ∃ kv ∈ stats, kv.1 ≠ uid ∧
          ∃ n, kv.2.name = some n ∧ n ≠ "" ∧ lowerStr n = lowerStr name)) ∧
    ((registerOrRename stats uid name).1 ≠ .ok →
      (registerOrRename stats uid name).2 = stats) ∧
    ((registerOrRename stats uid name).1 = .ok →
      ∃ c, findKey uid (registerOrRename stats uid name).2 = some c ∧
        c.name = some name) := by
  unfold registerOrRename
  split_ifs with h1 h2 h3
  · exact ⟨⟨fun _ => Or.inl h1, fun _ => by simp⟩,
      fun _ => rfl, fun hok => by simp at hok⟩
  · exact ⟨⟨fun _ => Or.inr (Or.inl h2), fun _ => by simp⟩,
      fun _ => rfl, fun hok => by simp at hok⟩
  · exact ⟨⟨fun _ => Or.inr (Or.inr ((nameTaken_iff stats uid name).mp h3)),
      fun _ => by simp⟩, fun _ => rfl, fun hok => by simp at hok⟩
  · refine ⟨⟨fun hne => absurd rfl hne, ?_⟩, fun hne => absurd rfl hne, ?_⟩
    · rintro (hc | hc | hc)
      · exact absurd hc h1
      · exact absurd hc h2
      · exact absurd ((nameTaken_iff stats uid name).mpr hc) (by simpa using h3)
    · intro _
      unfold setCareerName
      cases hf : findKey uid stats with
      | some c =>
          exact ⟨{ c with name := some name },
            by simpa using findKey_setKey_self uid _ stats, rfl⟩
      | none =>
          exact ⟨{ Career.fresh with name := some name },
            by simpa using findKey_setKey_self uid _ stats, rfl⟩

/-- Stats store for the C9 witness: player 1 is registered as "Ab". -/
def statsEx : List (Nat × Career) := [(1, { Career.fresh with name := some "Ab" })]

/-- Witness for C9: player 2 successfully registers the free name "cd". -/
theorem register_rules_witness :
    ∃ c, findKey 2 (registerOrRename statsEx 2 "cd").2 = some c ∧
      c.name = some "cd" :=
  (register_rules statsEx 2 "cd").2.2 (by decide)

/-- State for the C6 counterexample: venue 1 already holds a lobby hosted
by player 5; players 5 and 7 are registered; no match is active. -/
def stHasLobby : BotState :=
  { user_stats := [(5, { Career.fresh with name := some "Host" }),
                   (7, { Career.fresh with name := some "Other" })]
    lobbies := [(1, { host := 5, players := [5], message_id := none })]
    games := [] }

/-- Counterexample to C6 as stated: with a lobby already present at the
venue (and no match), `cmd_startgame` does not fail — it opens a new lobby
that replaces the old one. -/
theorem startgame_lobby_not_blocking :
    (findKey 1 stHasLobby.lobbies).isSome = true ∧
    cmd_startgame stHasLobby 1 7 =
      .opened { stHasLobby with

                lobbies := [(1, { host := 7, players := [7], message_id := none })] } := by
  constructor
  · rfl
  · rfl

/-- Claim C6 (amended): opening a lobby fails with NotRegistered when the
host has no career name, fails with AlreadyActive only when a match is
active at the venue, and otherwise succeeds — replacing any existing lobby
— creating a lobby whose participant list is exactly the host. -/
theorem startgame_rules (st : BotState) (v uid : Nat) :
    (hasName st.user_stats uid = false →
      cmd_startgame st v uid = .notRegistered) ∧
    (hasName st.user_stats uid = true → (findKey v st.games).isSome = true →
      cmd_startgame st v uid = .matchActive) ∧
    (hasName st.user_stats uid = true → findKey v st.games = none →
      cmd_startgame st v uid =
        .opened { st with
                  lobbies := setKey v ⟨uid, [uid], none⟩ st.lobbies } ∧
      findKey v (setKey v (⟨uid, [uid], none⟩ : Lobby) st.lobbies) =
        some ⟨uid, [uid], none⟩) := by
  refine ⟨?_, ?_, ?_⟩
  · intro h
    simp [cmd_startgame, h]
  · intro h hg
    simp [cmd_startgame, h, hg]
  · intro h hg
    refine ⟨by simp [cmd_startgame, h, hg], findKey_setKey_self v _ st.lobbies⟩

/-- Witness for C6 (amended): a registered host opens a lobby in a venue
with no match; the created lobby's participants are exactly the host. -/
theorem startgame_rules_witness :
    cmd_startgame stHasLobby 2 5 =
      .opened { stHasLobby with
                lobbies := setKey 2 ⟨5, [5], none⟩ stHasLobby.lobbies } ∧
    findKey 2 (setKey 2 (⟨5, [5], none⟩ : Lobby) stHasLobby.lobbies) =
      some ⟨5, [5], none⟩ :=
  (startgame_rules stHasLobby 2 5).2.2 (by decide) (by decide)

/-- Registry invariant: dict-like key uniqueness for both registries, and
no venue holding a lobby and a game at once. -/
def RegInv (st : BotState) : Prop :=
  keysNodup st.lobbies ∧ keysNodup st.games ∧
    ∀ v, findKey v st.lobbies = none ∨ findKey v st.games = none

theorem inv_eraseLobby (st : BotState) (v : Nat) (h : RegInv st) :
    RegInv { st with lobbies := eraseKey v st.lobbies } := by
  obtain ⟨hl, hg, hx⟩ := h
  refine ⟨keysNodup_eraseKey v hl, hg, fun v' => ?_⟩
  by_cases hv : v' = v
  · subst hv
    exact Or.inl (findKey_eraseKey_self v' st.lobbies)
  · rw [findKey_eraseKey_ne v v' st.lobbies hv]
    exact hx v'

theorem inv_eraseGame (st : BotState) (v : Nat) (h : RegInv st) :
    RegInv { st with games := eraseKey v st.games } := by
  obtain ⟨hl, hg, hx⟩ := h
  refine ⟨hl, keysNodup_eraseKey v hg, fun v' => ?_⟩
  by_cases hv : v' = v
  · subst hv
    exact Or.inr (findKey_eraseKey_self v' st.games)
  · rw [findKey_eraseKey_ne v v' st.games hv]
    exact hx v'

theorem inv_start_match (st : BotState) (v p1 p2 : Nat) (h : RegInv st)
    (hlob : findKey v st.lobbies = none) :
    RegInv (start_match st v p1 p2) := by
  obtain ⟨hl, hg, hx⟩ := h
  unfold start_match
  by_cases hgame : (findKey v st.games).isSome = true
  · simpa [hgame] using ⟨hl, hg, hx⟩
  · rw [if_neg hgame]
    refine ⟨hl, keysNodup_setKey v _ hg, fun v' => ?_⟩
    by_cases hv : v' = v
    · subst hv
      exact Or.inl hlob
    · rw [findKey_setKey_ne v v' _ st.games hv]
      exact hx v'

theorem inv_applyStep (st : BotState) (e : Step) (h : RegInv st) :
    RegInv (applyStep st e) := by
  obtain ⟨hl, hg, hx⟩ := h
  cases e with
  | startgame v uid =>
      simp only [applyStep]
      unfold cmd_startgame
      by_cases hr : hasName st.user_stats uid
      · by_cases hgame : (findKey v st.games).isSome = true
        · simpa [hr, hgame] using ⟨hl, hg, hx⟩
        · have hnone : findKey v st.games = none := by
            cases hfk : findKey v st.games
            · rfl
            · rw [hfk] at hgame
              simp at hgame
          rw [if_neg (by simp [hr]), if_neg hgame]
          dsimp only
          refine ⟨keysNodup_setKey v _ hl, hg, fun v' => ?_⟩
          by_cases hv : v' = v
          · subst hv
            exact Or.inr hnone
          · rw [findKey_setKey_ne v v' _ st.lobbies hv]
            exact hx v'
      · simpa [hr] using ⟨hl, hg, hx⟩
  | cancel v host uid =>
      simp only [applyStep]
      unfold lobby_cancel
      cases hf : findKey v st.lobbies with
      | none => exact inv_eraseLobby st v ⟨hl, hg, hx⟩
      | some lobby =>
          by_cases hh : lobby.host ≠ host
          · simpa [hh] using inv_eraseLobby st v ⟨hl, hg, hx⟩
          · by_cases hu : uid ≠ host
            · simpa [hh, hu] using ⟨hl, hg, hx⟩
            · simpa [hh, hu] using inv_eraseLobby st v ⟨hl, hg, hx⟩
  | join v host uid =>
      simp only [applyStep]
      unfold lobby_join
      cases hf : findKey v st.lobbies with
      | none => exact inv_eraseLobby st v ⟨hl, hg, hx⟩
      | some lobby =>
          dsimp only
          by_cases hh : lobby.host ≠ host
          · simpa [hh] using inv_eraseLobby st v ⟨hl, hg, hx⟩
          · by_cases hu : uid = host
            · simpa [hh, hu] using ⟨hl, hg, hx⟩
            · by_cases hr : hasName st.user_stats uid
              · rw [if_neg hh, if_neg hu, if_neg (by simp [hr])]
                refine inv_start_match _ v host uid ⟨?_, hg, ?_⟩ ?_
                · exact keysNodup_eraseKey v (keysNodup_setKey v _ hl)
                · intro v'
                  by_cases hv : v' = v
                  · subst hv
                    exact Or.inl (findKey_eraseKey_self v' _)
                  · rw [findKey_eraseKey_ne v v' _ hv,
                      findKey_setKey_ne v v' _ _ hv]
                    exact hx v'
                · exact findKey_eraseKey_self v _
              · simpa [hh, hu, hr] using ⟨hl, hg, hx⟩
  | finish v => exact inv_eraseGame st v ⟨hl, hg, hx⟩
  | register uid name => exact ⟨hl, hg, hx⟩

theorem inv_runSteps (steps : List Step) (st : BotState) (h : RegInv st) :
    RegInv (runSteps st steps) := by
  induction steps generalizing st with
  | nil => exact h
  | cons e rest ih => exact ih (applyStep st e) (inv_applyStep st e h)

/-- Claim C8: in every state reachable from empty registries, each venue
has at most one active match (dict key uniqueness), and no venue holds a
lobby and a match at the same time. -/
theorem venue_exclusion (steps : List Step) :
    keysNodup (runSteps initState steps).lobbies ∧
    keysNodup (runSteps initState steps).games ∧
    ∀ v, ¬ ((findKey v (runSteps initState steps).lobbies).isSome = true ∧
            (findKey v (runSteps initState steps).games).isSome = true) := by
  have h := inv_runSteps steps initState
    ⟨keysNodup_nil, keysNodup_nil, fun _ => Or.inl rfl⟩
  obtain ⟨hl, hg, hx⟩ := h
  refine ⟨hl, hg, fun v hcontra => ?_⟩
  obtain ⟨hsl, hsg⟩ := hcontra
  cases hx v with
  | inl hnone => rw [hnone] at hsl; cases hsl
  | inr hnone => rw [hnone] at hsg; cases hsg

end GoatRath
